import Mathlib

/-!
Shallow embedding of `nibabel/parrec.py` (PAR/REC header decoding) and proofs
about its derivations: per-line image-definition parsing, per-column
uniqueness checks, volume-shape / zoom / scaling computation, and the
scanner-space affine.

Numeric values from the header are modelled as rationals (`ℚ`): the Python
code manipulates machine ints and floats, but every claim under study is
about exact arithmetic on small header values, never about rounding.
Exceptions raised by the Python code are modelled with `Except PErr`.
-/

namespace ParRec

/-- Errors raised by the Python code.  Constructor names follow the spec's
error taxonomy; the comment on each names the Python exception it models. -/
inductive PErr where
  /-- `PARRECError` from `_get_unique_image_prop`: a field expected
  homogeneous varies (payload: the field name). -/
  | varyingProp (name : String)
  /-- `IndexError` from `items[item_counter]` / `prop[i]` out of range. -/
  | indexErr
  /-- `ValueError` from assigning a too-short vector to a fixed-shape
  structured-array field (broadcast failure). -/
  | broadcastErr
  /-- `ZeroDivisionError` from the `1/0` guard in `parse_PAR_header`. -/
  | zeroDiv
  /-- `PARRECError`: distinct slice-number count differs from `max_slices`. -/
  | inconsistentSlices
  /-- `RuntimeError`: more than one non-spatial axis varies
  (the spec's `AmbiguousDimensionError`). -/
  | ambiguousDims
  /-- `KeyError` from `slice_orientation_codes.label[...]`
  (the spec's `UnknownOrientationError`). -/
  | unknownOrient
  /-- `ValueError`: unknown scaling method string. -/
  | unknownScaling
deriving DecidableEq

instance {ε α : Type} [DecidableEq ε] [DecidableEq α] : DecidableEq (Except ε α)
  | .error a, .error b =>
    if h : a = b then .isTrue (by rw [h])
    else .isFalse (fun c => by injection c; contradiction)
  | .error _, .ok _ => .isFalse (fun c => Except.noConfusion c)
  | .ok _, .error _ => .isFalse (fun c => Except.noConfusion c)
  | .ok a, .ok b =>
    if h : a = b then .isTrue (by rw [h])
    else .isFalse (fun c => by injection c; contradiction)

/-! ## The image-definition schema (`image_def_dtd`) -/

/-- Element type declared for a field of the image-definition schema:
`int`, `float`, or the 30-byte string dtype `'S30'`. -/
inductive PType where
  | pInt
  | pFloat
  | pS30
deriving DecidableEq

/-- One entry of `image_def_dtd`: `(name, dtype)` or `(name, dtype, shape)`.
`shape = none` models a 2-tuple entry, `shape = some sh` a 3-tuple entry. -/
structure FieldSpec where
  name : String
  ptype : PType
  shape : Option (List Nat) := none
deriving DecidableEq

/-- `image_def_dtd` from the source, in declared order (41 fields). -/
def image_def_dtd : List FieldSpec := [
  ⟨"slice number", .pInt, none⟩,
  ⟨"echo number", .pInt, none⟩,
  ⟨"dynamic scan number", .pInt, none⟩,
  ⟨"cardiac phase number", .pInt, none⟩,
  ⟨"image_type_mr", .pInt, none⟩,
  ⟨"scanning sequence", .pInt, none⟩,
  ⟨"index in REC file", .pInt, none⟩,
  ⟨"image pixel size", .pInt, none⟩,
  ⟨"scan percentage", .pInt, none⟩,
  ⟨"recon resolution", .pInt, some [2]⟩,
  ⟨"rescale intercept", .pFloat, none⟩,
  ⟨"rescale slope", .pFloat, none⟩,
  ⟨"scale slope", .pFloat, none⟩,
  ⟨"window center", .pInt, none⟩,
  ⟨"window width", .pInt, none⟩,
  ⟨"image angulation", .pFloat, some [3]⟩,
  ⟨"image offcentre", .pFloat, some [3]⟩,
  ⟨"slice thickness", .pFloat, none⟩,
  ⟨"slice gap", .pFloat, none⟩,
  ⟨"image_display_orientation", .pInt, none⟩,
  ⟨"slice orientation", .pInt, none⟩,
  ⟨"fmri_status_indication", .pInt, none⟩,
  ⟨"image_type_ed_es", .pInt, none⟩,
  ⟨"pixel spacing", .pFloat, some [2]⟩,
  ⟨"echo_time", .pFloat, none⟩,
  ⟨"dyn_scan_begin_time", .pFloat, none⟩,
  ⟨"trigger_time", .pFloat, none⟩,
  ⟨"diffusion_b_factor", .pFloat, none⟩,
  ⟨"number of averages", .pInt, none⟩,
  ⟨"image_flip_angle", .pFloat, none⟩,
  ⟨"cardiac frequency", .pInt, none⟩,
  ⟨"minimum RR-interval", .pInt, none⟩,
  ⟨"maximum RR-interval", .pInt, none⟩,
  ⟨"TURBO factor", .pInt, none⟩,
  ⟨"Inversion delay", .pFloat, none⟩,
  ⟨"diffusion b value number", .pInt, none⟩,
  ⟨"gradient orientation number", .pInt, none⟩,
  ⟨"contrast type", .pS30, none⟩,
  ⟨"diffusion anisotropy type", .pS30, none⟩,
  ⟨"diffusion", .pFloat, some [3]⟩,
  ⟨"label type", .pInt, none⟩]

/-- `np.issubdtype(image_defs[props[0]].dtype, binary_type)`: the base dtype
of a structured-array column is a byte string exactly when the declared
element type is `'S30'`. -/
def isBinaryField (f : FieldSpec) : Bool := f.ptype == .pS30

/-- The per-line loop of `parse_PAR_header`: consume whitespace-split tokens
of one image-definition line against the schema, in declared order.  Tokens
are modelled as already-converted numbers (numeric casts are total here; the
claims under study do not concern malformed numeric tokens).  Returns the
list of per-field value vectors.

Branches, in source order:
* byte-string dtype: store one token (`items[item_counter]`, `IndexError`
  when exhausted);
* 2-tuple entry (scalar): the dead `if props[1] == 'S30': 1/0` guard, then
  one token;
* 3-tuple entry (array): `items[c : c+nelements]` (a slice, never raising),
  then assignment into the fixed-shape field, which fails to broadcast when
  fewer than `nelements` tokens remain. -/
def parseFields : List FieldSpec → List ℚ → Except PErr (List (List ℚ))
  | [], _ => .ok []
  | f :: rest, items =>
    if isBinaryField f then
      match items with
      | [] => .error .indexErr
      | t :: more =>
        match parseFields rest more with
        | .error e => .error e
        | .ok r => .ok ([t] :: r)
    else
      match f.shape with
      | none =>
        if f.ptype == .pS30 then .error .zeroDiv
        else
          match items with
          | [] => .error .indexErr
          | t :: more =>
            match parseFields rest more with
            | .error e => .error e
            | .ok r => .ok ([t] :: r)
      | some sh =>
        if (items.take sh.prod).length = sh.prod then
          match parseFields rest (items.drop sh.prod) with
          | .error e => .error e
          | .ok r => .ok (items.take sh.prod :: r)
        else .error .broadcastErr

/-- Number of tokens one image-definition line must supply: one per scalar
or string field, product-of-shape per array field. -/
def requiredTokens : List FieldSpec → ℕ
  | [] => 0
  | f :: rest =>
    (if isBinaryField f then 1
     else match f.shape with
          | none => 1
          | some sh => sh.prod) + requiredTokens rest

/-- `true` exactly on the result modelling a `ZeroDivisionError`. -/
def isZeroDivResult : Except PErr (List (List ℚ)) → Bool
  | .error .zeroDiv => true
  | _ => false

/-! ## General information and the image-definition table

Only the fields consumed by the derivations under verification are carried;
names follow the short names of `_hdr_key_dict` / `image_def_dtd`. -/

/-- The "General Information" entries used by the header derivations.
The `Max. number ...` entries are declared `int` in `_hdr_key_dict` and are
modelled as `ℤ`; `repetition_time`, `angulation` and `off_center` are
float-valued. -/
structure GeneralInfo where
  max_echoes : ℤ
  max_slices : ℤ
  max_dynamics : ℤ
  max_diffusion_values : ℤ
  max_gradient_orient : ℤ
  repetition_time : ℚ
  angulation : List ℚ
  off_center : List ℚ
deriving DecidableEq

/-- One row of the image-definition table (the columns the derivations
read).  Array-valued fields are list-valued. -/
structure ImageDef where
  slice_number : ℚ
  echo_number : ℚ
  dynamic_scan_number : ℚ
  recon_resolution : List ℚ
  rescale_intercept : ℚ
  rescale_slope : ℚ
  scale_slope : ℚ
  slice_thickness : ℚ
  slice_gap : ℚ
  slice_orient_code : ℚ
  pixel_spacing : List ℚ
deriving DecidableEq

/-- `PARRECHeader`: general info plus the image-definition table, and the
`default_scaling` constructor argument (Python default `'dv'`). -/
structure PARRECHeader where
  general_info : GeneralInfo
  image_defs : List ImageDef
  default_scaling : String := "dv"
deriving DecidableEq

/-- `PARRECHeader.copy`: rebuilds the header from (deep) copies of the two
data members.  `default_scaling` is not passed, so the copy gets the
constructor default `'dv'`.  Deep copy of immutable values is the identity
in this embedding. -/
def copy (h : PARRECHeader) : PARRECHeader :=
  { general_info := h.general_info, image_defs := h.image_defs,
    default_scaling := "dv" }

/-! ## `_get_unique_image_prop` -/

/-- Scalar-column branch of `_get_unique_image_prop` (`len(prop.shape) = 1`):
`np.unique` of the column must be a singleton, which is then returned.
`List.dedup` stands in for `np.unique`: only the set of distinct values (and
its size) is ever observed, never the sort order. -/
def uniqueScalarProp (nm : String) (col : List ℚ) : Except PErr (List ℚ) :=
  if col.dedup.length = 1 then .ok [col.dedup.headD 0]
  else .error (.varyingProp nm)

/-- Array-column branch of `_get_unique_image_prop` (`len(prop.shape) > 1`).
The source iterates `for i in range(len(prop.shape))`, i.e. over `prop[0]`
and `prop[1]` — the first two ROWS (raising `IndexError` when fewer than two
rows exist) — takes `np.unique` within each, requires the product of their
lengths to be 1, and returns the two first elements. -/
def uniqueArrayProp (nm : String) (rows : List (List ℚ)) : Except PErr (List ℚ) :=
  match rows.get? 0 with
  | none => .error .indexErr
  | some r0 =>
    match rows.get? 1 with
    | none => .error .indexErr
    | some r1 =>
      if r0.dedup.length * r1.dedup.length = 1 then
        .ok [r0.dedup.headD 0, r1.dedup.headD 0]
      else .error (.varyingProp nm)

/-- `_get_unique_image_prop(name)`: dispatches on the column named, taking
the scalar branch for 1-D columns and the array branch for 2-D columns,
exactly as `len(prop.shape)` does in the source. -/
def get_unique_image_prop (h : PARRECHeader) : String → Except PErr (List ℚ)
  | "slice thickness" =>
    uniqueScalarProp "slice thickness" (h.image_defs.map fun d => d.slice_thickness)
  | "slice gap" =>
    uniqueScalarProp "slice gap" (h.image_defs.map fun d => d.slice_gap)
  | "scale slope" =>
    uniqueScalarProp "scale slope" (h.image_defs.map fun d => d.scale_slope)
  | "rescale slope" =>
    uniqueScalarProp "rescale slope" (h.image_defs.map fun d => d.rescale_slope)
  | "rescale intercept" =>
    uniqueScalarProp "rescale intercept" (h.image_defs.map fun d => d.rescale_intercept)
  | "slice orientation" =>
    uniqueScalarProp "slice orientation" (h.image_defs.map fun d => d.slice_orient_code)
  | "pixel spacing" =>
    uniqueArrayProp "pixel spacing" (h.image_defs.map fun d => d.pixel_spacing)
  | "recon resolution" =>
    uniqueArrayProp "recon resolution" (h.image_defs.map fun d => d.recon_resolution)
  | _ => .error .indexErr

/-! ## Geometry derivations -/

/-- `len(np.unique(col))`: number of distinct values in a column. -/
def distinctCount (col : List ℚ) : ℕ := col.dedup.length

/-- `ndynamics` in `get_data_shape_in_file`. -/
def ndynamics (h : PARRECHeader) : ℕ :=
  distinctCount (h.image_defs.map fun d => d.dynamic_scan_number)

/-- `ndtivolumes = (max_diffusion_values - 1) * max_gradient_orient`. -/
def ndtivolumes (h : PARRECHeader) : ℤ :=
  (h.general_info.max_diffusion_values - 1) * h.general_info.max_gradient_orient

/-- `nslices`: distinct slice-number count. -/
def nslices (h : PARRECHeader) : ℕ :=
  distinctCount (h.image_defs.map fun d => d.slice_number)

/-- `nechos`: distinct echo-number count. -/
def nechos (h : PARRECHeader) : ℕ :=
  distinctCount (h.image_defs.map fun d => d.echo_number)

/-- `sum(x > 1 for x in [ndynamics, ndtivolumes, nechos])`. -/
def varyingAxes (h : PARRECHeader) : ℕ :=
  (if 1 < ndynamics h then 1 else 0)
  + (if 1 < ndtivolumes h then 1 else 0)
  + (if 1 < nechos h then 1 else 0)

/-- `get_data_shape_in_file`: in-plane resolution, slice count, and at most
one non-spatial axis length, with the slice-count consistency check and the
multiple-varying-axes check in source order. -/
def get_data_shape_in_file (h : PARRECHeader) : Except PErr (List ℚ) :=
  if ¬((nslices h : ℤ) = h.general_info.max_slices) then .error .inconsistentSlices
  else if 1 < varyingAxes h then .error .ambiguousDims
  else
    match get_unique_image_prop h "recon resolution" with
    | .error e => .error e
    | .ok inplane =>
      if 1 < ndynamics h then
        .ok (inplane ++ [(nslices h : ℚ)] ++ [(ndynamics h : ℚ)])
      else if 1 < ndtivolumes h then
        .ok (inplane ++ [(nslices h : ℚ)] ++ [(ndtivolumes h : ℚ)])
      else if 1 < nechos h then
        .ok (inplane ++ [(nslices h : ℚ)] ++ [(nechos h : ℚ)])
      else .ok (inplane ++ [(nslices h : ℚ)])

/-- `get_voxel_size`: `(pixel_spacing[0], pixel_spacing[1], slice_thickness)`,
slice gap not included. -/
def get_voxel_size (h : PARRECHeader) : Except PErr (ℚ × ℚ × ℚ) :=
  match get_unique_image_prop h "slice thickness" with
  | .error e => .error e
  | .ok th =>
    match get_unique_image_prop h "pixel spacing" with
    | .error e => .error e
    | .ok sp => .ok (sp.getD 0 0, sp.getD 1 0, th.headD 0)

/-- `get_ndim`: 4 when any of the three non-spatial maxima exceeds 1. -/
def get_ndim (h : PARRECHeader) : ℕ :=
  if 1 < h.general_info.max_dynamics
     ∨ 1 < h.general_info.max_gradient_orient
     ∨ 1 < h.general_info.max_echoes then 4 else 3

/-- `_get_zooms`: voxel size with the slice gap added to the slice-axis
entry; a 4th entry when `get_ndim` is 4, set to `repetition_time / 1000`
when `max_dynamics > 1` and left at the default 1 otherwise. -/
def get_zooms (h : PARRECHeader) : Except PErr (List ℚ) :=
  match get_unique_image_prop h "slice gap" with
  | .error e => .error e
  | .ok gl =>
    match get_voxel_size h with
    | .error e => .error e
    | .ok v =>
      if get_ndim h = 4 then
        if 1 < h.general_info.max_dynamics then
          .ok ([v.1, v.2.1, v.2.2 + gl.headD 0]
               ++ [h.general_info.repetition_time / 1000])
        else .ok ([v.1, v.2.1, v.2.2 + gl.headD 0] ++ [1])
      else .ok [v.1, v.2.1, v.2.2 + gl.headD 0]

/-! ## Scaling -/

/-- `get_data_scaling(method)`: `dv` reports `(rescale slope, rescale
intercept)`, `fp` reports `(1/scale slope, rescale intercept / (rescale
slope * scale slope))`; any other method string fails. -/
def get_data_scaling (h : PARRECHeader) (method : String) : Except PErr (ℚ × ℚ) :=
  match get_unique_image_prop h "scale slope" with
  | .error e => .error e
  | .ok ssl =>
    match get_unique_image_prop h "rescale slope" with
    | .error e => .error e
    | .ok rsl =>
      match get_unique_image_prop h "rescale intercept" with
      | .error e => .error e
      | .ok ril =>
        let scale_slope := ssl.headD 0
        let rescale_slope := rsl.headD 0
        let rescale_intercept := ril.headD 0
        if method = "dv" then .ok (rescale_slope, rescale_intercept)
        else if method = "fp" then
          .ok (1 / scale_slope, rescale_intercept / (rescale_slope * scale_slope))
        else .error .unknownScaling

/-- `get_slope_inter`: default scaling under the configured method. -/
def get_slope_inter (h : PARRECHeader) : Except PErr (ℚ × ℚ) :=
  get_data_scaling h h.default_scaling

/-! ## Slice orientation -/

/-- The three acquisition-plane classes. -/
inductive SliceOrient where
  | transverse
  | sagittal
  | coronal
deriving DecidableEq

/-- Modelled from the spec: the `Recoder` mapping `slice_orientation_codes`
(`nibabel.volumeutils.Recoder` is not under `src/`): the fixed table
`{1 -> transverse, 2 -> sagittal, 3 -> coronal}`; an unknown code has no
label (the lookup raises). -/
def slice_orientation_codes_label (c : ℚ) : Option SliceOrient :=
  if c = 1 then some .transverse
  else if c = 2 then some .sagittal
  else if c = 3 then some .coronal
  else none

/-- `get_slice_orientation`: label of the homogeneity-checked orientation
code.  The source memoizes the result on the header; recomputation is
idempotent, so the cache is dropped here. -/
def get_slice_orientation (h : PARRECHeader) : Except PErr SliceOrient :=
  match get_unique_image_prop h "slice orientation" with
  | .error e => .error e
  | .ok u =>
    match slice_orientation_codes_label (u.headD 0) with
    | some o => .ok o
    | none => .error .unknownOrient

/-! ## The affine (`get_affine`)

Matrices are real-valued; header rationals are cast into `ℝ`. -/

noncomputable section

/-- `PSL_TO_RAS` from the source. -/
def PSL_TO_RAS : Matrix (Fin 4) (Fin 4) ℝ :=
  !![0, 0, -1, 0;
     -1, 0, 0, 0;
     0, 1, 0, 0;
     0, 0, 0, 1]

/-- `ACQ_TO_PSL` from the source (`sagittal` is `np.diag([1, -1, -1, 1])`).
The Python dict lookup is total on the three labels
`get_slice_orientation` can produce, so its `None` check is unreachable. -/
def ACQ_TO_PSL : SliceOrient → Matrix (Fin 4) (Fin 4) ℝ
  | .transverse =>
    !![0, 1, 0, 0;
       0, 0, 1, 0;
       1, 0, 0, 0;
       0, 0, 0, 1]
  | .sagittal =>
    !![1, 0, 0, 0;
       0, -1, 0, 0;
       0, 0, -1, 0;
       0, 0, 0, 1]
  | .coronal =>
    !![0, 0, 1, 0;
       0, -1, 0, 0;
       1, 0, 0, 0;
       0, 0, 0, 1]

/-- Modelled from the spec: `nibabel.affines.from_matvec` (not under
`src/`): embeds a 3x3 block and a translation vector into a homogeneous
4x4 matrix with bottom row `[0, 0, 0, 1]`. -/
def from_matvec (M : Matrix (Fin 3) (Fin 3) ℝ) (v : Fin 3 → ℝ) :
    Matrix (Fin 4) (Fin 4) ℝ :=
  Matrix.of fun i j =>
    if hi : (i : ℕ) < 3 then
      if hj : (j : ℕ) < 3 then M ⟨i, hi⟩ ⟨j, hj⟩ else v ⟨i, hi⟩
    else
      if (j : ℕ) = 3 then 1 else 0

/-- Modelled from the spec: single-axis rotation about the x axis
(`nibabel.eulerangles` is not under `src/`; the spec describes the rotation
as successive single-axis rotations from the three angulation angles taken
in reverse declared order). -/
def rotX (a : ℝ) : Matrix (Fin 3) (Fin 3) ℝ :=
  !![1, 0, 0;
     0, Real.cos a, -Real.sin a;
     0, Real.sin a, Real.cos a]

/-- Modelled from the spec: single-axis rotation about the y axis. -/
def rotY (a : ℝ) : Matrix (Fin 3) (Fin 3) ℝ :=
  !![Real.cos a, 0, Real.sin a;
     0, 1, 0;
     -Real.sin a, 0, Real.cos a]

/-- Modelled from the spec: single-axis rotation about the z axis. -/
def rotZ (a : ℝ) : Matrix (Fin 3) (Fin 3) ℝ :=
  !![Real.cos a, -Real.sin a, 0;
     Real.sin a, Real.cos a, 0;
     0, 0, 1]

/-- Modelled from the spec: `euler2mat(z, y, x)` — successive rotations
about the z, y and x axes in that order. -/
def euler2mat (z y x : ℝ) : Matrix (Fin 3) (Fin 3) ℝ :=
  rotZ z * rotY y * rotX x

/-- `np.diag(list(zooms[:3]) + [1])`. -/
def zoomerOf (z : List ℚ) : Matrix (Fin 4) (Fin 4) ℝ :=
  Matrix.of fun i j =>
    if i = j then (if (i : ℕ) < 3 then ((z.getD i 1 : ℚ) : ℝ) else 1) else 0

/-- `psl_aff[:3, 3] += iso_offset`: adds the offset to the first three
entries of the translation column, leaving every other entry unchanged. -/
def addIso (M : Matrix (Fin 4) (Fin 4) ℝ) (off : Fin 4 → ℝ) :
    Matrix (Fin 4) (Fin 4) ℝ :=
  Matrix.of fun i j =>
    if (i : ℕ) < 3 ∧ (j : ℕ) = 3 then M i j + off i else M i j

/-- `get_affine(origin)`: recenter to the volume middle, scale by the
zooms, permute into PSL axes, rotate by the angulation angles
(degrees to radians, reversed order), add the isocenter offset when
`origin == 'scanner'` (any other string behaves like `'fov'`, as in the
source), and map PSL to RAS.  `dot_reduce` is the left-associated matrix
product.  The data shape and zooms are the construction-time values,
recomputed here from the same inputs. -/
def get_affine (h : PARRECHeader) (origin : String) :
    Except PErr (Matrix (Fin 4) (Fin 4) ℝ) :=
  match get_data_shape_in_file h with
  | .error e => .error e
  | .ok s =>
    match get_zooms h with
    | .error e => .error e
    | .ok z =>
      match get_slice_orientation h with
      | .error e => .error e
      | .ok so =>
        let to_center :=
          from_matvec 1 (fun i => -(((s.getD i 0 : ℚ) : ℝ) - 1) / 2)
        let zoomer := zoomerOf z
        let permute_to_psl := ACQ_TO_PSL so
        let ang : Fin 3 → ℝ :=
          fun i => ((h.general_info.angulation.getD i 0 : ℚ) : ℝ) * Real.pi / 180
        let rot := from_matvec (euler2mat (ang 2) (ang 1) (ang 0)) 0
        let psl_aff := rot * permute_to_psl * zoomer * to_center
        let psl2 :=
          if origin = "scanner" then
            addIso psl_aff
              (fun i => ((h.general_info.off_center.getD i 0 : ℚ) : ℝ))
          else psl_aff
        .ok (PSL_TO_RAS * psl2)

/-- Upper-left 3x3 rotation/scale block of a homogeneous 4x4 matrix. -/
def ulBlock (A : Matrix (Fin 4) (Fin 4) ℝ) : Matrix (Fin 3) (Fin 3) ℝ :=
  Matrix.of fun i j => A i.castSucc j.castSucc

/-- Bottom row of a homogeneous 4x4 matrix. -/
def bottomRow (A : Matrix (Fin 4) (Fin 4) ℝ) : Fin 4 → ℝ :=
  fun j => A 3 j

end

/-! ## Concrete headers used as inputs for the theorems below -/

/-- Build one image-definition row from the column values used here. -/
def sampleDef (sl ec dyn : ℚ) (rr : List ℚ) (ri rs ss th gp so : ℚ)
    (ps : List ℚ) : ImageDef :=
  ⟨sl, ec, dyn, rr, ri, rs, ss, th, gp, so, ps⟩

/-- Build a general-information record from the values used here. -/
def sampleGI (echoes slices dynamics diff grad : ℤ) (rep : ℚ) : GeneralInfo :=
  { max_echoes := echoes, max_slices := slices, max_dynamics := dynamics,
    max_diffusion_values := diff, max_gradient_orient := grad,
    repetition_time := rep, angulation := [0, 0, 0], off_center := [0, 0, 0] }

/-- Header whose pixel-spacing rows are `[3,3]`, `[4,4]`, `[5,5]`: three
distinct combinations across rows, every row internally constant. -/
def hdrC1 : PARRECHeader :=
  { general_info := sampleGI 1 1 1 1 1 2000,
    image_defs :=
      [sampleDef 1 1 1 [64, 64] 0 2 2 6 2 1 [3, 3],
       sampleDef 1 1 1 [64, 64] 0 2 2 6 2 1 [4, 4],
       sampleDef 1 1 1 [64, 64] 0 2 2 6 2 1 [5, 5]] }

/-- 4-D dynamic-scan series: 2 slices, 3 dynamics, scaling columns
`SS = 2`, `RS = 3/2`, `RI = 0`. -/
def hdrC2 : PARRECHeader :=
  { general_info := sampleGI 1 2 3 1 1 2000,
    image_defs :=
      [sampleDef 1 1 1 [64, 64] 0 (3/2) 2 6 2 1 [3, 3],
       sampleDef 2 1 1 [64, 64] 0 (3/2) 2 6 2 1 [3, 3],
       sampleDef 1 1 2 [64, 64] 0 (3/2) 2 6 2 1 [3, 3],
       sampleDef 2 1 2 [64, 64] 0 (3/2) 2 6 2 1 [3, 3],
       sampleDef 1 1 3 [64, 64] 0 (3/2) 2 6 2 1 [3, 3],
       sampleDef 2 1 3 [64, 64] 0 (3/2) 2 6 2 1 [3, 3]] }

/-- Series in which both the dynamic-scan count (3) and the echo count (2)
exceed 1, with a consistent slice count. -/
def hdrC2amb : PARRECHeader :=
  { general_info := sampleGI 2 2 3 1 1 2000,
    image_defs :=
      [sampleDef 1 1 1 [64, 64] 0 2 2 6 2 1 [3, 3],
       sampleDef 2 1 2 [64, 64] 0 2 2 6 2 1 [3, 3],
       sampleDef 1 2 3 [64, 64] 0 2 2 6 2 1 [3, 3],
       sampleDef 2 2 1 [64, 64] 0 2 2 6 2 1 [3, 3]] }

/-- Same series as `hdrC2` but integer scaling columns, used where the
whole derivation is evaluated definitionally. -/
def hdrC5 : PARRECHeader :=
  { general_info := sampleGI 1 2 3 1 1 2000,
    image_defs :=
      [sampleDef 1 1 1 [64, 64] 0 2 2 6 2 1 [3, 3],
       sampleDef 2 1 2 [64, 64] 0 2 2 6 2 1 [3, 3],
       sampleDef 1 1 3 [64, 64] 0 2 2 6 2 1 [3, 3],
       sampleDef 2 1 1 [64, 64] 0 2 2 6 2 1 [3, 3]] }

/-- Two distinct slice numbers but `max_slices = 3`: inconsistent. -/
def hdrC5bad : PARRECHeader :=
  { general_info := sampleGI 1 3 1 1 1 2000,
    image_defs :=
      [sampleDef 1 1 1 [64, 64] 0 2 2 6 2 1 [3, 3],
       sampleDef 2 1 1 [64, 64] 0 2 2 6 2 1 [3, 3]] }

/-- Scaling fixture: columns `SS = 2`, `RS = 3/2`, `RI = 0` (the spec's
worked example). -/
def hdrC4 : PARRECHeader :=
  { general_info := sampleGI 1 2 1 1 1 2000,
    image_defs :=
      [sampleDef 1 1 1 [64, 64] 0 (3/2) 2 6 2 1 [3, 3],
       sampleDef 2 1 1 [64, 64] 0 (3/2) 2 6 2 1 [3, 3]] }

/-- 4-D dynamics fixture for the zoom theorem: thickness 6, gap 2,
pixel spacing `[3, 3]`, repetition time 2000 ms. -/
def hdrC6 : PARRECHeader :=
  { general_info := sampleGI 1 2 3 1 1 2000,
    image_defs :=
      [sampleDef 1 1 1 [64, 64] 0 2 2 6 2 1 [3, 3],
       sampleDef 2 1 1 [64, 64] 0 2 2 6 2 1 [3, 3]] }

/-- Consistent 3-D header with the unknown slice-orientation code 5. -/
def hdrC7u : PARRECHeader :=
  { general_info := sampleGI 1 2 1 1 1 2000,
    image_defs :=
      [sampleDef 1 1 1 [64, 64] 0 2 2 6 2 5 [3, 3],
       sampleDef 2 1 1 [64, 64] 0 2 2 6 2 5 [3, 3]] }

/-- Consistent 3-D header with slice-orientation code 1 (transverse). -/
def hdrC7t : PARRECHeader :=
  { general_info := sampleGI 1 2 1 1 1 2000,
    image_defs :=
      [sampleDef 1 1 1 [64, 64] 0 2 2 6 2 1 [3, 3],
       sampleDef 2 1 1 [64, 64] 0 2 2 6 2 1 [3, 3]] }

/-- Header constructed with `default_scaling = 'fp'`; its `dv` and `fp`
scalings differ (`SS = 2`, `RS = 2`, `RI = 0`).  Two slices with a
matching `max_slices` and homogeneous columns, so the construction-time
derivations (`get_data_shape_in_file`, `_get_zooms`) all succeed. -/
def hdrC9 : PARRECHeader :=
  { general_info := sampleGI 1 2 1 1 1 2000,
    image_defs :=
      [sampleDef 1 1 1 [64, 64] 0 2 2 6 2 1 [3, 3],
       sampleDef 2 1 1 [64, 64] 0 2 2 6 2 1 [3, 3]],
    default_scaling := "fp" }

/-- Same constructible two-slice series as `hdrC9`, but constructed with
the default `default_scaling = 'dv'`. -/
def hdrC9dv : PARRECHeader :=
  { general_info := sampleGI 1 2 1 1 1 2000,
    image_defs :=
      [sampleDef 1 1 1 [64, 64] 0 2 2 6 2 1 [3, 3],
       sampleDef 2 1 1 [64, 64] 0 2 2 6 2 1 [3, 3]],
    default_scaling := "dv" }

/-! ## Helper lemmas about the uniqueness checks -/

theorem dedup_const {l : List ℚ} {a : ℚ} (hne : l ≠ [])
    (hall : ∀ x ∈ l, x = a) : l.dedup = [a] := by
  induction l with
  | nil => cases hne rfl
  | cons x xs ih =>
    have hx : x = a := hall x (by simp)
    subst hx
    cases xs with
    | nil => simp
    | cons y ys =>
      have hy : y = x := hall y (by simp)
      have hmem : x ∈ y :: ys := by rw [hy]; simp
      rw [List.dedup_cons_of_mem hmem]
      exact ih (by simp) fun z hz => hall z (List.mem_cons_of_mem _ hz)

theorem uniqueScalarProp_const (nm : String) {l : List ℚ} {a : ℚ}
    (hne : l ≠ []) (hall : ∀ x ∈ l, x = a) :
    uniqueScalarProp nm l = .ok [a] := by
  simp [uniqueScalarProp, dedup_const hne hall]

theorem uniqueScalarProp_ok_val {nm : String} {l u : List ℚ} {a : ℚ}
    (hok : uniqueScalarProp nm l = .ok u) (hall : ∀ x ∈ l, x = a) :
    u = [a] := by
  have hne : l ≠ [] := by
    intro h0
    subst h0
    simp [uniqueScalarProp] at hok
  rw [uniqueScalarProp_const nm hne hall] at hok
  exact (Except.ok.inj hok).symm

theorem uniqueArrayProp_ok_len {nm : String} {rows : List (List ℚ)}
    {u : List ℚ} (hok : uniqueArrayProp nm rows = .ok u) : u.length = 2 := by
  unfold uniqueArrayProp at hok
  rcases h0 : rows.get? 0 with _ | r0 <;> rw [h0] at hok <;> dsimp only at hok
  · exact Except.noConfusion hok
  rcases h1 : rows.get? 1 with _ | r1 <;> rw [h1] at hok <;> dsimp only at hok
  · exact Except.noConfusion hok
  split at hok
  · rw [← Except.ok.inj hok]
    rfl
  · exact Except.noConfusion hok

theorem uniqueArrayProp_const_rows {nm : String} {rows : List (List ℚ)}
    {u : List ℚ} {px py : ℚ} (hok : uniqueArrayProp nm rows = .ok u)
    (hall : ∀ r ∈ rows, r = [px, py]) : px = py ∧ u = [px, py] := by
  unfold uniqueArrayProp at hok
  rcases h0 : rows.get? 0 with _ | r0 <;> rw [h0] at hok <;> dsimp only at hok
  · exact Except.noConfusion hok
  rcases h1 : rows.get? 1 with _ | r1 <;> rw [h1] at hok <;> dsimp only at hok
  · exact Except.noConfusion hok
  have hr0 : r0 = [px, py] := hall r0 (List.get?_mem h0)
  have hr1 : r1 = [px, py] := hall r1 (List.get?_mem h1)
  subst hr0
  subst hr1
  by_cases hpq : px = py
  · subst hpq
    have hd : ([px, px] : List ℚ).dedup = [px] :=
      dedup_const (by simp) (by intro z hz; simp at hz; exact hz)
    rw [hd] at hok
    simp at hok
    exact ⟨rfl, hok.symm⟩
  · have hd : ([px, py] : List ℚ).dedup = [px, py] := by
      rw [List.dedup_cons_of_not_mem (by simp [hpq])]
      simp
    rw [hd] at hok
    simp at hok

/-! ## C1: `_get_unique_image_prop` on array-valued fields -/

/-- C1 (code bug witness): on a table whose `pixel spacing` rows are
`[3,3]`, `[4,4]`, `[5,5]` — three distinct combinations across rows, so
more than one distinct combination exists — `_get_unique_image_prop`
returns `[3, 4]` without raising, and `[3, 4]` is not the combination of
any row.  The uniqueness check inspects only `prop[0]` and `prop[1]`
(`for i in range(len(prop.shape))`), contradicting the claim and the
function's own docstring. -/
theorem unique_image_prop_checks_rows_not_combinations :
    get_unique_image_prop hdrC1 "pixel spacing" = .ok [3, 4]
    ∧ (hdrC1.image_defs.map fun d => d.pixel_spacing).dedup.length = 3
    ∧ ¬([3, 4] ∈ hdrC1.image_defs.map fun d => d.pixel_spacing) := by
  refine ⟨rfl, rfl, ?_⟩
  decide

/-! ## C4: `get_data_scaling` -/

/-- C4: for a header whose homogeneity-checked scalars are `SS`, `RS`,
`RI`, method `dv` yields `(RS, RI)` and method `fp` yields
`(1/SS, RI/(RS*SS))`; with `SS = 2`, `RS = 3/2`, `RI = 0` a stored value
10 gives `DV = 15`, `FP = 5`, and `FP * (RS * SS) = DV`. -/
theorem get_data_scaling_dv_fp (h : PARRECHeader) (SS RS RI : ℚ)
    (hss : get_unique_image_prop h "scale slope" = .ok [SS])
    (hrs : get_unique_image_prop h "rescale slope" = .ok [RS])
    (hri : get_unique_image_prop h "rescale intercept" = .ok [RI]) :
    get_data_scaling h "dv" = .ok (RS, RI)
    ∧ get_data_scaling h "fp" = .ok (1 / SS, RI / (RS * SS))
    ∧ (SS = 2 → RS = 3 / 2 → RI = 0 →
        10 * RS + RI = 15
        ∧ 10 * (1 / SS) + RI / (RS * SS) = 5
        ∧ (10 * (1 / SS) + RI / (RS * SS)) * (RS * SS) = 10 * RS + RI) := by
  refine ⟨?_, ?_, ?_⟩
  · unfold get_data_scaling
    rw [hss, hrs, hri]
    simp
  · unfold get_data_scaling
    rw [hss, hrs, hri]
    simp
  · intro h2 h32 h0
    subst h2
    subst h32
    subst h0
    norm_num

/-- C4 witness: the worked example evaluated on a concrete header. -/
theorem get_data_scaling_dv_fp_witness :
    get_unique_image_prop hdrC4 "scale slope" = .ok [2]
    ∧ get_data_scaling hdrC4 "dv" = .ok (3 / 2, 0)
    ∧ get_data_scaling hdrC4 "fp" = .ok (1 / 2, 0 / (3 / 2 * 2))
    ∧ 10 * (3 / 2 : ℚ) + 0 = 15 := by
  have hss : get_unique_image_prop hdrC4 "scale slope" = .ok [2] :=
    uniqueScalarProp_const _ (by simp [hdrC4])
      (by intro x hx; simp [hdrC4, sampleDef] at hx; simp [hx])
  have hrs : get_unique_image_prop hdrC4 "rescale slope" = .ok [3 / 2] :=
    uniqueScalarProp_const _ (by simp [hdrC4])
      (by intro x hx; simp [hdrC4, sampleDef] at hx; simp [hx])
  have hri : get_unique_image_prop hdrC4 "rescale intercept" = .ok [0] :=
    uniqueScalarProp_const _ (by simp [hdrC4])
      (by intro x hx; simp [hdrC4, sampleDef] at hx; simp [hx])
  obtain ⟨h1, h2, h3⟩ := get_data_scaling_dv_fp hdrC4 2 (3 / 2) 0 hss hrs hri
  exact ⟨hss, h1, by rw [h2], (h3 rfl rfl rfl).1⟩

/-! ## C5: slice-count consistency -/

/-- C5: whenever `get_data_shape_in_file` returns a shape, the distinct
slice-number count equals `max_slices`; whenever they differ, it fails
with the inconsistent-header error. -/
theorem shape_requires_slice_count_eq_max (h : PARRECHeader) :
    (∀ s, get_data_shape_in_file h = .ok s →
        (nslices h : ℤ) = h.general_info.max_slices)
    ∧ ((nslices h : ℤ) ≠ h.general_info.max_slices →
        get_data_shape_in_file h = .error .inconsistentSlices) := by
  constructor
  · intro s hs
    by_contra hne
    unfold get_data_shape_in_file at hs
    rw [if_pos hne] at hs
    exact Except.noConfusion hs
  · intro hne
    unfold get_data_shape_in_file
    rw [if_pos hne]

/-- C5 witness: a consistent header passes and satisfies the equality; a
header with 2 distinct slice numbers but `max_slices = 3` fails. -/
theorem shape_requires_slice_count_eq_max_witness :
    get_data_shape_in_file hdrC5 = .ok [64, 64, 2, 3]
    ∧ (nslices hdrC5 : ℤ) = hdrC5.general_info.max_slices
    ∧ get_data_shape_in_file hdrC5bad = .error .inconsistentSlices := by
  refine ⟨rfl, ?_, ?_⟩
  · exact (shape_requires_slice_count_eq_max hdrC5).1 [64, 64, 2, 3] rfl
  · exact (shape_requires_slice_count_eq_max hdrC5bad).2 (by decide)

/-! ## C9: `copy` and the default scaling method -/

/-- C9 counterexample: `hdrC9` is constructible — the derivations run at
`PARRECHeader.__init__` time (data shape, zooms) succeed on its two-row
table — yet `copy` does not preserve `get_slope_inter`: the copy reports
the `dv` scaling because `copy()` rebuilds the header without passing
`default_scaling`. -/
theorem copy_changes_fp_slope_inter :
    get_data_shape_in_file hdrC9 = .ok [64, 64, 2]
    ∧ get_zooms hdrC9 = .ok [3, 3, 6 + 2]
    ∧ get_slope_inter (copy hdrC9) ≠ get_slope_inter hdrC9 := by
  refine ⟨rfl, rfl, ?_⟩
  have h1 : get_slope_inter (copy hdrC9) = .ok (2, 0) := rfl
  have h2 : get_slope_inter hdrC9 = .ok (1 / 2, 0 / (2 * 2)) := rfl
  rw [h1, h2]
  intro hc
  have h3 : ((2 : ℚ), (0 : ℚ)) = (1 / 2, 0 / (2 * 2)) := Except.ok.inj hc
  have h4 : (2 : ℚ) = 1 / 2 := congrArg Prod.fst h3
  norm_num at h4

/-- C9 amended: `copy` resets `default_scaling` to `'dv'`, so the copy's
`get_slope_inter` agrees with the original exactly when the original was
configured with the default `'dv'` method. -/
theorem copy_preserves_slope_inter_dv (h : PARRECHeader)
    (hd : h.default_scaling = "dv") :
    get_slope_inter (copy h) = get_slope_inter h := by
  unfold get_slope_inter
  rw [hd]
  rfl

/-- C9 witness: a constructible `dv`-configured header (its
construction-time shape and zoom derivations succeed) round-trips
through `copy`. -/
theorem copy_preserves_slope_inter_dv_witness :
    get_data_shape_in_file hdrC9dv = .ok [64, 64, 2]
    ∧ get_zooms hdrC9dv = .ok [3, 3, 6 + 2]
    ∧ hdrC9dv.default_scaling = "dv"
    ∧ get_slope_inter (copy hdrC9dv) = get_slope_inter hdrC9dv :=
  ⟨rfl, rfl, rfl, copy_preserves_slope_inter_dv hdrC9dv rfl⟩

/-! ## C2: the optional 4th axis of the data shape -/

/-- C2: when `get_data_shape_in_file` returns a shape, either none of
{ndynamics, ndtivolumes, nechos} exceeds 1 and the shape is 3-D, or
exactly one exceeds 1 and the appended 4th length is one of the three
counts; when two or more exceed 1 (and the slice count is consistent, the
check made first), it fails with the ambiguous-dimension error. -/
theorem shape_fourth_axis (h : PARRECHeader) :
    (∀ s, get_data_shape_in_file h = .ok s →
        (varyingAxes h = 0 ∧ s.length = 3)
        ∨ (varyingAxes h = 1 ∧ s.length = 4
            ∧ (s.getD 3 0 = (ndynamics h : ℚ)
               ∨ s.getD 3 0 = ((ndtivolumes h : ℤ) : ℚ)
               ∨ s.getD 3 0 = (nechos h : ℚ))))
    ∧ (1 < varyingAxes h →
        (nslices h : ℤ) = h.general_info.max_slices →
        get_data_shape_in_file h = .error .ambiguousDims) := by
  constructor
  · intro s hs
    unfold get_data_shape_in_file at hs
    by_cases hsl : ¬((nslices h : ℤ) = h.general_info.max_slices)
    · rw [if_pos hsl] at hs
      exact Except.noConfusion hs
    rw [if_neg hsl] at hs
    by_cases hva : 1 < varyingAxes h
    · rw [if_pos hva] at hs
      exact Except.noConfusion hs
    rw [if_neg hva] at hs
    cases hrr : get_unique_image_prop h "recon resolution" with
    | error e =>
      rw [hrr] at hs
      exact Except.noConfusion hs
    | ok inplane =>
      rw [hrr] at hs
      dsimp only at hs
      have hlen2 : inplane.length = 2 :=
        uniqueArrayProp_ok_len
          (show uniqueArrayProp "recon resolution"
              (h.image_defs.map fun d => d.recon_resolution) = .ok inplane
            from hrr)
      obtain ⟨a, b, hab⟩ := List.length_eq_two.mp hlen2
      subst hab
      by_cases hd : 1 < ndynamics h
      · rw [if_pos hd] at hs
        rw [← Except.ok.inj hs]
        refine Or.inr ⟨?_, by simp, Or.inl (by simp)⟩
        unfold varyingAxes at hva ⊢
        rw [if_pos hd] at hva ⊢
        split_ifs at hva ⊢ <;> omega
      · rw [if_neg hd] at hs
        by_cases hti : 1 < ndtivolumes h
        · rw [if_pos hti] at hs
          rw [← Except.ok.inj hs]
          refine Or.inr ⟨?_, by simp, Or.inr (Or.inl (by simp))⟩
          unfold varyingAxes at hva ⊢
          rw [if_neg hd, if_pos hti] at hva ⊢
          split_ifs at hva ⊢ <;> omega
        · rw [if_neg hti] at hs
          by_cases hec : 1 < nechos h
          · rw [if_pos hec] at hs
            rw [← Except.ok.inj hs]
            refine Or.inr ⟨?_, by simp, Or.inr (Or.inr (by simp))⟩
            unfold varyingAxes
            rw [if_neg hd, if_neg hti, if_pos hec]
          · rw [if_neg hec] at hs
            rw [← Except.ok.inj hs]
            refine Or.inl ⟨?_, by simp⟩
            unfold varyingAxes
            rw [if_neg hd, if_neg hti, if_neg hec]
  · intro hva hsl
    unfold get_data_shape_in_file
    rw [if_neg (not_not_intro hsl)]
    rw [if_pos hva]

/-- C2 witness: a 3-dynamics series produces a 4-D shape whose 4th length
is the dynamic count; a series with 3 dynamics and 2 echoes fails with the
ambiguous-dimension error. -/
theorem shape_fourth_axis_witness :
    get_data_shape_in_file hdrC2 = .ok [64, 64, 2, 3]
    ∧ ((varyingAxes hdrC2 = 0 ∧ ([64, 64, 2, 3] : List ℚ).length = 3)
       ∨ (varyingAxes hdrC2 = 1 ∧ ([64, 64, 2, 3] : List ℚ).length = 4
           ∧ (([64, 64, 2, 3] : List ℚ).getD 3 0 = (ndynamics hdrC2 : ℚ)
              ∨ ([64, 64, 2, 3] : List ℚ).getD 3 0
                  = ((ndtivolumes hdrC2 : ℤ) : ℚ)
              ∨ ([64, 64, 2, 3] : List ℚ).getD 3 0 = (nechos hdrC2 : ℚ))))
    ∧ 1 < varyingAxes hdrC2amb
    ∧ get_data_shape_in_file hdrC2amb = .error .ambiguousDims := by
  have hamb : 1 < varyingAxes hdrC2amb := by decide
  exact ⟨rfl, (shape_fourth_axis hdrC2).1 [64, 64, 2, 3] rfl, hamb,
    (shape_fourth_axis hdrC2amb).2 hamb (by decide)⟩

/-! ## C6: voxel size and zooms -/

/-- C6: on a header whose pixel-spacing, thickness and gap columns are
homogeneous (with the given per-row values) and which passes the
homogeneity checks, `get_voxel_size` returns
`(pixel_spacing_x, pixel_spacing_y, slice_thickness)` with no gap folded
in, and `_get_zooms` returns the voxel size with the slice-axis entry
replaced by thickness + gap, plus — only in the 4-D case — a 4th entry
equal to `repetition_time / 1000` when `max_dynamics > 1` and left at 1
otherwise. -/
theorem voxel_size_and_zooms (h : PARRECHeader) (px py t g : ℚ)
    (hps : ∀ d ∈ h.image_defs, d.pixel_spacing = [px, py])
    (hth : ∀ d ∈ h.image_defs, d.slice_thickness = t)
    (hg : ∀ d ∈ h.image_defs, d.slice_gap = g) :
    (∀ v, get_voxel_size h = .ok v → v = (px, py, t))
    ∧ (∀ z, get_zooms h = .ok z →
        z.take 3 = [px, py, t + g]
        ∧ (get_ndim h = 4 → 1 < h.general_info.max_dynamics →
            z = [px, py, t + g, h.general_info.repetition_time / 1000])
        ∧ (get_ndim h = 4 → ¬1 < h.general_info.max_dynamics →
            z = [px, py, t + g, 1])
        ∧ (get_ndim h = 3 → z = [px, py, t + g])) := by
  have hvox : ∀ v, get_voxel_size h = .ok v → v = (px, py, t) := by
    intro v hv
    unfold get_voxel_size at hv
    cases hthok : get_unique_image_prop h "slice thickness" with
    | error e =>
      rw [hthok] at hv
      exact Except.noConfusion hv
    | ok th =>
      rw [hthok] at hv
      dsimp only at hv
      cases hpsok : get_unique_image_prop h "pixel spacing" with
      | error e =>
        rw [hpsok] at hv
        exact Except.noConfusion hv
      | ok sp =>
        rw [hpsok] at hv
        dsimp only at hv
        have hthv : th = [t] :=
          uniqueScalarProp_ok_val
            (show uniqueScalarProp "slice thickness"
                (h.image_defs.map fun d => d.slice_thickness) = .ok th
              from hthok)
            (by
              intro x hx
              obtain ⟨d, hd, rfl⟩ := List.mem_map.mp hx
              exact hth d hd)
        obtain ⟨hpq, hspv⟩ :=
          uniqueArrayProp_const_rows
            (show uniqueArrayProp "pixel spacing"
                (h.image_defs.map fun d => d.pixel_spacing) = .ok sp
              from hpsok)
            (by
              intro r hr
              obtain ⟨d, hd, rfl⟩ := List.mem_map.mp hr
              exact hps d hd)
        rw [← Except.ok.inj hv, hspv, hthv]
        simp [hpq]
  refine ⟨hvox, ?_⟩
  intro z hz
  unfold get_zooms at hz
  cases hgok : get_unique_image_prop h "slice gap" with
  | error e =>
    rw [hgok] at hz
    exact Except.noConfusion hz
  | ok gl =>
    rw [hgok] at hz
    dsimp only at hz
    cases hvok : get_voxel_size h with
    | error e =>
      rw [hvok] at hz
      exact Except.noConfusion hz
    | ok v =>
      rw [hvok] at hz
      dsimp only at hz
      have hglv : gl = [g] :=
        uniqueScalarProp_ok_val
          (show uniqueScalarProp "slice gap"
              (h.image_defs.map fun d => d.slice_gap) = .ok gl
            from hgok)
          (by
            intro x hx
            obtain ⟨d, hd, rfl⟩ := List.mem_map.mp hx
            exact hg d hd)
      have hveq : v = (px, py, t) := hvox v hvok
      rw [hglv, hveq] at hz
      dsimp only at hz
      by_cases h4 : get_ndim h = 4
      · rw [if_pos h4] at hz
        by_cases hdy : 1 < h.general_info.max_dynamics
        · rw [if_pos hdy] at hz
          rw [← Except.ok.inj hz]
          refine ⟨by simp, fun _ _ => by simp, fun _ hn => absurd hdy hn, ?_⟩
          intro h3
          rw [h4] at h3
          exact absurd h3 (by norm_num)
        · rw [if_neg hdy] at hz
          rw [← Except.ok.inj hz]
          refine ⟨by simp, fun _ hd2 => absurd hd2 hdy, fun _ _ => by simp, ?_⟩
          intro h3
          rw [h4] at h3
          exact absurd h3 (by norm_num)
      · rw [if_neg h4] at hz
        rw [← Except.ok.inj hz]
        exact ⟨by simp, fun h4x => absurd h4x h4, fun h4x => absurd h4x h4,
          fun _ => rfl⟩

/-- C6 witness: the 4-D dynamics fixture: voxel size `(3, 3, 6)`, zooms
`[3, 3, 6 + 2, 2000 / 1000]`. -/
theorem voxel_size_and_zooms_witness :
    get_voxel_size hdrC6 = .ok (3, 3, 6)
    ∧ get_zooms hdrC6 = .ok [3, 3, 6 + 2, 2000 / 1000]
    ∧ [3, 3, 6 + 2, 2000 / 1000]
        = [(3 : ℚ), 3, 6 + 2, hdrC6.general_info.repetition_time / 1000] := by
  have hc :=
    voxel_size_and_zooms hdrC6 3 3 6 2
      (by intro d hd; simp [hdrC6] at hd; rcases hd with rfl | rfl <;> rfl)
      (by intro d hd; simp [hdrC6] at hd; rcases hd with rfl | rfl <;> rfl)
      (by intro d hd; simp [hdrC6] at hd; rcases hd with rfl | rfl <;> rfl)
  have hz := (hc.2 [3, 3, 6 + 2, 2000 / 1000] rfl).2.1 rfl (by decide)
  exact ⟨rfl, rfl, by rw [← hz]⟩

/-! ## C7: slice-orientation codes -/

/-- C7: a header whose homogeneity-checked slice-orientation code is not
1, 2 or 3 makes `get_affine` fail with the unknown-orientation error (for
either origin, provided shape and zoom derivation succeed so the header is
constructible); codes 1, 2 and 3 resolve to transverse, sagittal and
coronal respectively. -/
theorem orientation_code_lookup (h : PARRECHeader) (c : ℚ)
    (hu : get_unique_image_prop h "slice orientation" = .ok [c]) :
    ((c ≠ 1 ∧ c ≠ 2 ∧ c ≠ 3) →
      ∀ s z, get_data_shape_in_file h = .ok s → get_zooms h = .ok z →
        ∀ origin, get_affine h origin = .error .unknownOrient)
    ∧ (c = 1 → get_slice_orientation h = .ok .transverse)
    ∧ (c = 2 → get_slice_orientation h = .ok .sagittal)
    ∧ (c = 3 → get_slice_orientation h = .ok .coronal) := by
  have hkey : get_slice_orientation h
      = (match slice_orientation_codes_label c with
         | some o => .ok o
         | none => .error .unknownOrient) := by
    unfold get_slice_orientation
    rw [hu]
    rfl
  refine ⟨?_, ?_, ?_, ?_⟩
  · rintro ⟨h1, h2, h3⟩ s z hs hz origin
    have hnone : slice_orientation_codes_label c = none := by
      unfold slice_orientation_codes_label
      rw [if_neg h1, if_neg h2, if_neg h3]
    have hsoerr : get_slice_orientation h = .error .unknownOrient := by
      rw [hkey, hnone]
    unfold get_affine
    rw [hs]
    dsimp only
    rw [hz]
    dsimp only
    rw [hsoerr]
  · intro h1
    subst h1
    rw [hkey]
    rfl
  · intro h2
    subst h2
    rw [hkey]
    rfl
  · intro h3
    subst h3
    rw [hkey]
    rfl

/-- C7 witness: code 5 on an otherwise-consistent header fails the affine;
code 1 resolves to transverse. -/
theorem orientation_code_lookup_witness :
    get_unique_image_prop hdrC7u "slice orientation" = .ok [5]
    ∧ get_affine hdrC7u "scanner" = .error .unknownOrient
    ∧ get_slice_orientation hdrC7t = .ok .transverse := by
  refine ⟨rfl, ?_, ?_⟩
  · exact (orientation_code_lookup hdrC7u 5 rfl).1
      ⟨by norm_num, by norm_num, by norm_num⟩ [64, 64, 2] [3, 3, 6 + 2]
      rfl rfl "scanner"
  · exact (orientation_code_lookup hdrC7t 1 rfl).2.1 rfl

/-! ## C3: the affine's origin affects only the translation column -/

theorem PSL_mul_addIso_blocks (M : Matrix (Fin 4) (Fin 4) ℝ)
    (off : Fin 4 → ℝ) :
    ulBlock (PSL_TO_RAS * addIso M off) = ulBlock (PSL_TO_RAS * M)
    ∧ bottomRow (PSL_TO_RAS * addIso M off) = bottomRow (PSL_TO_RAS * M) := by
  constructor
  · ext i j
    show (PSL_TO_RAS * addIso M off) i.castSucc j.castSucc
        = (PSL_TO_RAS * M) i.castSucc j.castSucc
    rw [Matrix.mul_apply, Matrix.mul_apply]
    apply Finset.sum_congr rfl
    intro k _
    congr 1
    show addIso M off k j.castSucc = M k j.castSucc
    unfold addIso
    rw [Matrix.of_apply]
    apply if_neg
    rintro ⟨-, hj⟩
    rw [Fin.coe_castSucc] at hj
    have := j.isLt
    omega
  · funext j
    show (PSL_TO_RAS * addIso M off) 3 j = (PSL_TO_RAS * M) 3 j
    rw [Matrix.mul_apply, Matrix.mul_apply, Fin.sum_univ_four,
      Fin.sum_univ_four]
    have e0 : PSL_TO_RAS 3 0 = 0 := by
      simp [PSL_TO_RAS, Matrix.vecHead, Matrix.vecTail]
    have e1 : PSL_TO_RAS 3 1 = 0 := by
      simp [PSL_TO_RAS, Matrix.vecHead, Matrix.vecTail]
    have e2 : PSL_TO_RAS 3 2 = 0 := by
      simp [PSL_TO_RAS, Matrix.vecHead, Matrix.vecTail]
    have e4 : addIso M off 3 j = M 3 j := by
      unfold addIso
      rw [Matrix.of_apply]
      apply if_neg
      rintro ⟨h3, -⟩
      exact absurd h3 (by decide)
    rw [e0, e1, e2, e4]
    ring

/-- C3: `get_affine` with origin `'scanner'` and with origin `'fov'`
agree on the upper-left 3x3 rotation/scale block and on the bottom row —
the isocenter offset only changes the first three entries of the
translation column (and when either derivation fails, both fail alike). -/
theorem affine_origin_affects_translation_only (h : PARRECHeader) :
    Except.map ulBlock (get_affine h "scanner")
      = Except.map ulBlock (get_affine h "fov")
    ∧ Except.map bottomRow (get_affine h "scanner")
      = Except.map bottomRow (get_affine h "fov") := by
  unfold get_affine
  cases hs : get_data_shape_in_file h with
  | error e => exact ⟨rfl, rfl⟩
  | ok s =>
    cases hz : get_zooms h with
    | error e => exact ⟨rfl, rfl⟩
    | ok z =>
      cases ho : get_slice_orientation h with
      | error e => exact ⟨rfl, rfl⟩
      | ok so =>
        dsimp only
        rw [if_pos rfl, if_neg (by decide : ¬("fov" = "scanner"))]
        constructor
        · exact congrArg Except.ok (PSL_mul_addIso_blocks _ _).1
        · exact congrArg Except.ok (PSL_mul_addIso_blocks _ _).2

/-! ## C8 / C10: the image-definition line parser -/

theorem parseFields_shortfall (dtd : List FieldSpec) (items : List ℚ)
    (hlt : items.length < requiredTokens dtd) :
    parseFields dtd items = .error .indexErr
    ∨ parseFields dtd items = .error .broadcastErr := by
  induction dtd generalizing items with
  | nil => simp [requiredTokens] at hlt
  | cons f rest ih =>
    simp only [requiredTokens] at hlt
    simp only [parseFields]
    by_cases hb : isBinaryField f
    · rw [if_pos hb]
      rw [if_pos hb] at hlt
      cases items with
      | nil => exact Or.inl rfl
      | cons t more =>
        dsimp only
        have hlt2 : more.length < requiredTokens rest := by
          simp at hlt
          omega
        rcases ih more hlt2 with he | he <;> rw [he]
        · exact Or.inl rfl
        · exact Or.inr rfl
    · rw [if_neg hb]
      rw [if_neg hb] at hlt
      have hS : (f.ptype == PType.pS30) = false := by
        simpa [isBinaryField] using hb
      cases hsh : f.shape with
      | none =>
        rw [hsh] at hlt
        dsimp only at hlt ⊢
        rw [hS]
        simp only [Bool.false_eq_true, if_false]
        cases items with
        | nil => exact Or.inl rfl
        | cons t more =>
          dsimp only
          have hlt2 : more.length < requiredTokens rest := by
            simp at hlt
            omega
          rcases ih more hlt2 with he | he <;> rw [he]
          · exact Or.inl rfl
          · exact Or.inr rfl
      | some sh =>
        rw [hsh] at hlt
        dsimp only at hlt ⊢
        by_cases hn : (items.take sh.prod).length = sh.prod
        · rw [if_pos hn]
          have hnle : sh.prod ≤ items.length := by
            rw [List.length_take] at hn
            omega
          have hlt2 : (items.drop sh.prod).length < requiredTokens rest := by
            rw [List.length_drop]
            omega
          rcases ih _ hlt2 with he | he <;> rw [he]
          · exact Or.inl rfl
          · exact Or.inr rfl
        · rw [if_neg hn]
          exact Or.inr rfl

theorem parseFields_no_zeroDiv (dtd : List FieldSpec) (items : List ℚ) :
    isZeroDivResult (parseFields dtd items) = false := by
  induction dtd generalizing items with
  | nil => rfl
  | cons f rest ih =>
    simp only [parseFields]
    by_cases hb : isBinaryField f
    · rw [if_pos hb]
      cases items with
      | nil => rfl
      | cons t more =>
        dsimp only
        cases hres : parseFields rest more with
        | error e =>
          have := ih more
          rw [hres] at this
          exact this
        | ok r => rfl
    · rw [if_neg hb]
      have hS : (f.ptype == PType.pS30) = false := by
        simpa [isBinaryField] using hb
      cases hsh : f.shape with
      | none =>
        dsimp only
        rw [hS]
        simp only [Bool.false_eq_true, if_false]
        cases items with
        | nil => rfl
        | cons t more =>
          dsimp only
          cases hres : parseFields rest more with
          | error e =>
            have := ih more
            rw [hres] at this
            exact this
          | ok r => rfl
      | some sh =>
        dsimp only
        by_cases hn : (items.take sh.prod).length = sh.prod
        · rw [if_pos hn]
          cases hres : parseFields rest (items.drop sh.prod) with
          | error e =>
            have := ih (items.drop sh.prod)
            rw [hres] at this
            exact this
          | ok r => rfl
        · rw [if_neg hn]
          rfl

/-- C8: a line whose token count is below the schema requirement (one per
scalar/string field, product-of-shape per array field) makes the
per-line parsing loop fail — with the out-of-range token access for
scalar/string fields or the fixed-shape assignment failure for array
fields — instead of producing a table row. -/
theorem parse_line_too_few_tokens (items : List ℚ)
    (hlt : items.length < requiredTokens image_def_dtd) :
    parseFields image_def_dtd items = .error .indexErr
    ∨ parseFields image_def_dtd items = .error .broadcastErr :=
  parseFields_shortfall image_def_dtd items hlt

/-- C8 witness: the empty token list is short of the 49 required tokens
and parsing it fails. -/
theorem parse_line_too_few_tokens_witness :
    ([] : List ℚ).length < requiredTokens image_def_dtd
    ∧ (parseFields image_def_dtd [] = .error .indexErr
       ∨ parseFields image_def_dtd [] = .error .broadcastErr) :=
  ⟨by decide, parse_line_too_few_tokens [] (by decide)⟩

/-- C10: a field declared `'S30'` is taken by the byte-string branch,
which stores one token and recurses — so the numeric branch's
`if props[1] == 'S30': 1/0` guard is unreachable and the per-line parsing
loop never produces a `ZeroDivisionError`, on any token list. -/
theorem string_fields_never_divide_by_zero :
    (∀ (nm : String) (sh : Option (List ℕ)) (rest : List FieldSpec)
        (t : ℚ) (more : List ℚ),
        parseFields ({ name := nm, ptype := .pS30, shape := sh } :: rest)
            (t :: more)
          = match parseFields rest more with
            | .error e => .error e
            | .ok r => .ok ([t] :: r))
    ∧ (∀ items, isZeroDivResult (parseFields image_def_dtd items) = false) :=
  ⟨fun _ _ _ _ _ => rfl, fun items => parseFields_no_zeroDiv image_def_dtd items⟩

end ParRec
